import Mathlib

/-
Verification development for the voice-call session layer
(server/lib/call.js: classes CallConversation and WebCall).

The embedding is shallow: audio sample buffers (Float32Array values) are
modelled as lists of abstract samples (List Int); the sample values are
opaque to the session layer, which only moves them around, so Int stands
in for the 32-bit float payload. Stateful JavaScript code is modelled by
explicit state passing over a session-state record, and the websocket,
speech-to-text engine, assistant and tone generator (all external
collaborators of call.js) are oracles supplied as parameters.
-/

set_option maxRecDepth 40000

namespace VoiceCall

/-! ## Audio reconstruction on EOS

The EOS branch of WebCall._handleWebsocket_Meta builds
  combinedAudio = new Float32Array(data.length * 1024)
and copies chunk i with combinedAudio.set(data[i], i * 1024).
A fresh Float32Array is zero-filled; TypedArray.set throws a RangeError
when offset + source length exceeds the target length. -/

/-- Semantics of JavaScript TypedArray.set: write `src` into `target` at
`off`, failing (RangeError) when the write would run past the end. -/
def typedArraySet (target src : List Int) (off : Nat) : Option (List Int) :=
  if off + src.length ≤ target.length then
    Option.some (target.take off ++ src ++ target.drop (off + src.length))
  else
    Option.none

/-- The copy loop of the EOS branch: chunk `i` is written at offset
`i * 1024`, in order. -/
def setChunksFrom : List (List Int) → Nat → List Int → Option (List Int)
  | [], _, acc => Option.some acc
  | c :: cs, i, acc =>
    match typedArraySet acc c (i * 1024) with
    | Option.some acc2 => setChunksFrom cs (i + 1) acc2
    | Option.none => Option.none

/-- The buffer handed to stt.transcribe: a zero-filled buffer of
`data.length * 1024` samples with each chunk copied at its 1024-aligned
offset, or failure when a copy overruns the buffer. -/
def combinedAudio (data : List (List Int)) : Option (List Int) :=
  setChunksFrom data 0 (List.replicate (data.length * 1024) 0)

lemma typedArraySet_length {t c r : List Int} {o : Nat}
    (h : typedArraySet t c o = Option.some r) : r.length = t.length := by
  unfold typedArraySet at h
  split at h
  · cases h
    simp only [List.length_append, List.length_take, List.length_drop]
    omega
  · cases h

lemma setChunksFrom_length :
    ∀ (cs : List (List Int)) (i : Nat) (acc r : List Int),
      setChunksFrom cs i acc = Option.some r → r.length = acc.length := by
  intro cs
  induction cs with
  | nil =>
    intro i acc r h
    cases h
    rfl
  | cons c cs ih =>
    intro i acc r h
    unfold setChunksFrom at h
    cases hset : typedArraySet acc c (i * 1024) with
    | none => rw [hset] at h; cases h
    | some acc2 =>
      rw [hset] at h
      have h2 := ih (i + 1) acc2 r h
      rw [h2, typedArraySet_length hset]

lemma combinedAudio_length {data : List (List Int)} {r : List Int}
    (h : combinedAudio data = Option.some r) : r.length = data.length * 1024 := by
  have := setChunksFrom_length data 0 _ r h
  simpa using this

/-- Zero padding of a chunk out to the 1024-sample slot it occupies. -/
def padChunk (c : List Int) : List Int := c ++ List.replicate (1024 - c.length) 0

lemma setChunksFrom_layout :
    ∀ (cs : List (List Int)) (i : Nat) (pre : List Int),
      (∀ c ∈ cs, c.length ≤ 1024) → pre.length = i * 1024 →
      setChunksFrom cs i (pre ++ List.replicate (cs.length * 1024) 0) =
        Option.some (pre ++ (cs.map padChunk).flatten) := by
  intro cs
  induction cs with
  | nil =>
    intro i pre _ _
    simp [setChunksFrom]
  | cons c cs ih =>
    intro i pre hle hpre
    have hc : c.length ≤ 1024 := hle c (by simp)
    have hlen :
        (pre ++ List.replicate ((c :: cs).length * 1024) 0).length =
          i * 1024 + (cs.length + 1) * 1024 := by
      simp only [List.length_append, List.length_replicate, List.length_cons, hpre]
    unfold setChunksFrom
    have hfit : i * 1024 + c.length ≤
        (pre ++ List.replicate ((c :: cs).length * 1024) 0).length := by
      rw [hlen]
      omega
    rw [typedArraySet, if_pos hfit]
    have htake :
        (pre ++ List.replicate ((c :: cs).length * 1024) 0).take (i * 1024) = pre := by
      rw [← hpre]
      exact List.take_left pre _
    have hdrop :
        (pre ++ List.replicate ((c :: cs).length * 1024) 0).drop (i * 1024 + c.length) =
          List.replicate ((cs.length + 1) * 1024 - c.length) 0 := by
      have h1 : i * 1024 + c.length = pre.length + c.length := by omega
      rw [h1, ← List.drop_drop, List.drop_left, List.drop_replicate]
      simp only [List.length_cons]
    rw [htake, hdrop]
    have hsplit : (cs.length + 1) * 1024 - c.length =
        (1024 - c.length) + cs.length * 1024 := by omega
    have hrepl :
        List.replicate ((cs.length + 1) * 1024 - c.length) (0 : Int) =
          List.replicate (1024 - c.length) 0 ++ List.replicate (cs.length * 1024) 0 := by
      rw [hsplit, List.replicate_add]
    rw [hrepl]
    have hassoc :
        pre ++ c ++ (List.replicate (1024 - c.length) (0 : Int) ++
            List.replicate (cs.length * 1024) 0) =
          (pre ++ padChunk c) ++ List.replicate (cs.length * 1024) 0 := by
      simp [padChunk]
    rw [hassoc]
    have hpre2 : (pre ++ padChunk c).length = (i + 1) * 1024 := by
      have : (padChunk c).length = 1024 := by
        simp [padChunk]
        omega
      simp [this, hpre]
      ring
    show setChunksFrom cs (i + 1)
        (pre ++ padChunk c ++ List.replicate (cs.length * 1024) 0) = _
    rw [ih (i + 1) (pre ++ padChunk c) (fun x hx => hle x (by simp [hx])) hpre2]
    simp [padChunk, List.append_assoc]

/-- When every chunk fits its slot, the reconstructed buffer is the
concatenation of the chunks, each zero padded to 1024 samples. -/
lemma combinedAudio_layout {data : List (List Int)}
    (h : ∀ c ∈ data, c.length ≤ 1024) :
    combinedAudio data = Option.some ((data.map padChunk).flatten) := by
  have := setChunksFrom_layout data 0 [] h (by simp)
  simpa [combinedAudio] using this

/-- When every chunk is exactly 1024 samples, the reconstructed buffer is
the exact concatenation of the chunks in order. -/
lemma combinedAudio_exact {data : List (List Int)}
    (h : ∀ c ∈ data, c.length = 1024) :
    combinedAudio data = Option.some data.flatten := by
  have hle : ∀ c ∈ data, c.length ≤ 1024 := fun c hc => le_of_eq (h c hc)
  rw [combinedAudio_layout hle]
  congr 1
  have hid : data.map padChunk = data.map id :=
    List.map_congr_left (fun c hc => by simp [padChunk, h c hc])
  rw [hid, List.map_id]

lemma setChunksFrom_lastLong :
    ∀ (cs : List (List Int)) (c : List Int) (i : Nat) (acc : List Int),
      acc.length = i * 1024 + (cs.length + 1) * 1024 → 1024 < c.length →
      setChunksFrom (cs ++ [c]) i acc = Option.none := by
  intro cs
  induction cs with
  | nil =>
    intro c i acc hlen hc
    simp only [List.length_nil] at hlen
    have hnil : ([] : List (List Int)) ++ [c] = [c] := rfl
    rw [hnil]
    unfold setChunksFrom
    have hgt : ¬ (i * 1024 + c.length ≤ acc.length) := by omega
    rw [typedArraySet, if_neg hgt]
  | cons d cs ih =>
    intro c i acc hlen hc
    have : (d :: cs) ++ [c] = d :: (cs ++ [c]) := rfl
    rw [this]
    unfold setChunksFrom
    cases hset : typedArraySet acc d (i * 1024) with
    | none => rfl
    | some acc2 =>
      have hlen2 : acc2.length = (i + 1) * 1024 + (cs.length + 1) * 1024 := by
        rw [typedArraySet_length hset, hlen]
        simp
        ring
      show setChunksFrom (cs ++ [c]) (i + 1) acc2 = Option.none
      rw [ih c (i + 1) acc2 hlen2 hc]

/-- A final chunk longer than 1024 samples makes the copy loop fail. -/
lemma combinedAudio_lastLong {data : List (List Int)} {pre : List (List Int)}
    {c : List Int} (hdata : data = pre ++ [c]) (hc : 1024 < c.length) :
    combinedAudio data = Option.none := by
  subst hdata
  unfold combinedAudio
  apply setChunksFrom_lastLong
  · simp
  · exact hc

/-! ## Outbound audio chunking

WebCall.pushAudio sends slice(i, i + 1024) for i = 0, 1024, 2048, ...
strictly below the buffer length. The loop is embedded with an explicit
iteration budget (one unit per loop entry, so the buffer length is always
enough), keeping the definition structurally recursive and executable. -/

/-- One iteration of the send loop: emit the first 1024 samples, continue
on the rest. -/
def chunkLoop : Nat → List Int → List (List Int)
  | 0, _ => []
  | fuel + 1, l => if l = [] then [] else l.take 1024 :: chunkLoop fuel (l.drop 1024)

/-- The sequence of binary frames sent by WebCall.pushAudio for a sample
buffer. -/
def pushAudioFrames (l : List Int) : List (List Int) := chunkLoop l.length l

lemma chunkLoop_nil (fuel : Nat) : chunkLoop fuel [] = [] := by
  cases fuel <;> simp [chunkLoop]

lemma chunkLoop_flatten :
    ∀ (fuel : Nat) (l : List Int), l.length ≤ fuel → (chunkLoop fuel l).flatten = l := by
  intro fuel
  induction fuel with
  | zero =>
    intro l h
    have : l = [] := List.length_eq_zero.1 (Nat.le_zero.1 h)
    simp [this, chunkLoop]
  | succ n ih =>
    intro l h
    by_cases hl : l = []
    · simp [hl, chunkLoop]
    · have hpos : 0 < l.length := List.length_pos.2 hl
      have hdrop : (l.drop 1024).length ≤ n := by
        simp
        omega
      simp only [chunkLoop, if_neg hl, List.flatten_cons, ih _ hdrop]
      exact List.take_append_drop 1024 l

lemma chunkLoop_sizes :
    ∀ (fuel : Nat) (l : List Int), ∀ f ∈ chunkLoop fuel l, f.length ≤ 1024 := by
  intro fuel
  induction fuel with
  | zero => intro l f hf; simp [chunkLoop] at hf
  | succ n ih =>
    intro l f hf
    by_cases hl : l = []
    · simp [hl, chunkLoop] at hf
    · simp only [chunkLoop, if_neg hl, List.mem_cons] at hf
      rcases hf with hf | hf
      · subst hf
        simp
      · exact ih _ f hf

lemma chunkLoop_full :
    ∀ (fuel : Nat) (l : List Int) (i : Nat) (f : List Int),
      i + 1 < (chunkLoop fuel l).length → (chunkLoop fuel l)[i]? = Option.some f →
      f.length = 1024 := by
  intro fuel
  induction fuel with
  | zero => intro l i f h _; simp [chunkLoop] at h
  | succ n ih =>
    intro l i f h hget
    by_cases hl : l = []
    · simp [hl, chunkLoop] at h
    · simp only [chunkLoop, if_neg hl] at h hget
      cases i with
      | zero =>
        simp only [List.getElem?_cons_zero] at hget
        cases hget
        have hne : chunkLoop n (l.drop 1024) ≠ [] := by
          intro hnil
          rw [hnil] at h
          simp at h
        have hdrop : l.drop 1024 ≠ [] := by
          intro hnil
          rw [hnil, chunkLoop_nil] at hne
          exact hne rfl
        have : 1024 < l.length := by
          by_contra hle
          push_neg at hle
          exact hdrop (List.drop_eq_nil_iff.2 hle)
        simp
        omega
      | succ j =>
        simp only [List.getElem?_cons_succ] at hget
        have hlen : j + 1 < (chunkLoop n (l.drop 1024)).length := by
          simp at h
          omega
        exact ih (l.drop 1024) j f hlen hget

/-! ## The session state machine

One CallConversation plus its WebCall, over one websocket connection.
External collaborators (assistant, speech-to-text engine, tone generator)
are oracles in `Params`. JavaScript object identity for the shared
history array (this.history = assistant.prompt) is modelled by a small
heap of turn arrays addressed by reference indices. Asynchronous awaits
of assistant.createResponse / textToSpeech inside the userMessage handler
are modelled by a queue `inFlight` of turns whose continuation has not
run yet; a `completeTurn` step resolves one of them. Event-handler code
between suspension points runs atomically, matching the single-threaded
cooperative scheduling of the runtime. -/

def START_LISTENING_TOKEN : String := "RDY"

def END_OF_SPEECH_TOKEN : String := "EOS"

def INTERRUPT_TOKEN : String := "INT"

def CLEAR_BUFFER_TOKEN : String := "CLR"

/-- One conversation turn. The content is an Option because JavaScript
can pass undefined where a string is expected. -/
structure Turn where
  role : String
  content : Option String
deriving DecidableEq, Repr

/-- Meta payload of a call-log entry. -/
inductive LogMeta
  | noMeta
  | initMeta (assistantInfo : String)
  | toolMeta (tool : String)
  | transcriptMeta (speaker : String) (message : Option String)
deriving DecidableEq, Repr

/-- A call-log entry: timestamp (modelled by a per-session counter),
event name, meta payload. -/
structure LogEntry where
  ts : Nat
  event : String
  meta : LogMeta
deriving DecidableEq, Repr

/-- Identity of a function registered on the EventEmitter for the
userMessage event: either the method CallConversation.startListening
itself, or the anonymous arrow function created by the k-th execution of
startListening. These are distinct function objects in JavaScript. -/
inductive HFun
  | method
  | anon (k : Nat)
deriving DecidableEq, Repr

/-- The external collaborators and configuration of one session. -/
structure Params where
  prompt : List Turn
  assistantInfo : String
  speakFirst : Bool
  speakFirstOpeningMessage : Option String
  createResponse : List Turn → Option String × Option String
  textToSpeech : Option String → List Int
  transcribe : List Int → String
  beep440 : List Int
  beep180 : List Int

/-- The observable state of one session. -/
structure ConvState where
  heap : List (List Turn)
  promptRef : Nat
  historyRef : Nat
  noted : List Turn
  callLog : List LogEntry
  now : Nat
  pendingSamples : List (List Int)
  sentMeta : List String
  sentSamples : List (List Int)
  emitted : List String
  sttInputs : List (List Int)
  requests : List (List Turn)
  userMsgListeners : List HFun
  nextAnonId : Nat
  inFlight : List (Option String × Option String)
  closed : Bool
  closeEvtFired : Bool
  onEndCalls : List (List LogEntry)
  warnings : Nat
  diagnostics : List String
  fatalError : Bool
  beginCalled : Bool
  readyFired : Bool
  sttDestroyCalls : Nat
deriving DecidableEq, Repr

def heapGet (h : List (List Turn)) (r : Nat) : List Turn := (h[r]?).getD []

def heapSet (h : List (List Turn)) (r : Nat) (v : List Turn) : List (List Turn) :=
  h.set r v

/-- The history array currently referenced by this.history. -/
def historyNow (s : ConvState) : List Turn := heapGet s.heap s.historyRef

/-- CallConversation.addToCallLog: push a timestamped entry. -/
def addToCallLog (s : ConvState) (event : String) (meta : LogMeta) : ConvState :=
  { s with callLog := s.callLog ++ [⟨s.now, event, meta⟩], now := s.now + 1 }

/-- WebCall.pushMeta: send one text frame. -/
def pushMeta (s : ConvState) (m : String) : ConvState :=
  { s with sentMeta := s.sentMeta ++ [m] }

/-- WebCall.pushAudio: send the buffer as sequential 1024-sample frames. -/
def pushSamples (s : ConvState) (buf : List Int) : ConvState :=
  { s with sentSamples := s.sentSamples ++ pushAudioFrames buf }

/-- Rendering of an Option String by JavaScript string interpolation. -/
def showOpt : Option String → String
  | Option.some m => m
  | Option.none => "undefined"

/-- CallConversation.noteWhatWasSaid: log a TRANSCRIPT entry, push the
turn onto the history array, echo a speaker-prefixed meta line. -/
def noteWhatWasSaid (s : ConvState) (speaker : String) (message : Option String) :
    ConvState :=
  let s1 := addToCallLog s "TRANSCRIPT" (LogMeta.transcriptMeta speaker message)
  let s2 := { s1 with
    heap := heapSet s1.heap s1.historyRef (historyNow s1 ++ [⟨speaker, message⟩]),
    noted := s1.noted ++ [⟨speaker, message⟩] }
  pushMeta s2 (speaker ++ ": " ++ showOpt message)

/-- The synchronous prefix of the userMessage handler registered by
startListening: send CLR, note the user turn, then call
assistant.createResponse on the current history and suspend awaiting it. -/
def userMsgSync (p : Params) (message : Option String) (s : ConvState) : ConvState :=
  let s1 := pushMeta s CLEAR_BUFFER_TOKEN
  let s2 := noteWhatWasSaid s1 "user" message
  { s2 with
    requests := s2.requests ++ [historyNow s2],
    inFlight := s2.inFlight ++ [p.createResponse (historyNow s2)] }

/-- Run a state transformer n times (EventEmitter.emit runs the handler
once per registration). -/
def applyTimes (f : ConvState → ConvState) : Nat → ConvState → ConvState
  | 0, s => s
  | n + 1, s => applyTimes f n (f s)

/-- The callEnded handler registered in the CallConversation constructor:
append CALL_ENDED and invoke onEnd with the call log (which at that point
already holds the CALL_ENDED entry). -/
def emitCallEnded (s : ConvState) : ConvState :=
  let s1 := addToCallLog s "CALL_ENDED" LogMeta.noMeta
  { s1 with onEndCalls := s1.onEndCalls ++ [s1.callLog] }

/-- WebCall._handleWebsocket_Meta plus the handlers the conversation has
registered on the WebCall emitter (callEnded, INT, and any userMessage
listeners). An unknown name with no listener is re-emitted into the void;
emitting error with no error listener throws, which surfaces as a fatal
unhandled rejection. -/
def handleMeta (p : Params) (str : String) (s : ConvState) : ConvState :=
  if str = END_OF_SPEECH_TOKEN then
    if s.pendingSamples.length ≠ 0 then
      match combinedAudio s.pendingSamples with
      | Option.none => { s with fatalError := true }
      | Option.some buf =>
        let transcription := p.transcribe buf
        let s1 := { s with sttInputs := s.sttInputs ++ [buf] }
        let s2 := pushMeta s1 "--- time.transcription"
        let s3 := { s2 with emitted := s2.emitted ++ ["userMessage"] }
        let s4 := applyTimes (userMsgSync p (Option.some transcription))
          s3.userMsgListeners.length s3
        { s4 with pendingSamples := [] }
    else
      { s with warnings := s.warnings + 1 }
  else
    let s0 := { s with emitted := s.emitted ++ [str] }
    let s1 :=
      if str = INTERRUPT_TOKEN then
        noteWhatWasSaid s0 "user" (Option.some "[Interrupted your last message]")
      else if str = "callEnded" then
        emitCallEnded s0
      else if str = "userMessage" then
        applyTimes (userMsgSync p Option.none) s0.userMsgListeners.length s0
      else if str = "error" then
        { s0 with fatalError := true }
      else
        s0
    if str = "error" then s1
    else { s1 with diagnostics := s1.diagnostics ++ ["Unknown message type: " ++ str] }

/-- The continuation of the userMessage handler after its awaits resolve:
profiling meta, optional assistant turn with synthesized speech, tool
logging, and the endCall branch with its failed listener removal. -/
def runTurnRest (p : Params) (r : Option String × Option String) (s : ConvState) :
    ConvState :=
  let s1 := pushMeta s "--- time.responseGeneration"
  let s2 :=
    match r.1 with
    | Option.some c =>
      if c ≠ "" then
        let sa := noteWhatWasSaid s1 "assistant" (Option.some c)
        let sb := pushMeta sa "--- time.speechGeneration"
        pushSamples sb (p.textToSpeech (Option.some c))
      else s1
    | Option.none => s1
  let s3 :=
    match r.2 with
    | Option.some t =>
      if t ≠ "" then addToCallLog s2 "TOOL_SELECTED" (LogMeta.toolMeta t) else s2
    | Option.none => s2
  match r.2 with
  | Option.some t =>
    if t = "endCall" then
      let sa := pushMeta s3 "---- Assistant Hung Up ----"
      let sb := pushSamples sa p.beep180
      let sc := { sb with closed := true }
      { sc with userMsgListeners := sc.userMsgListeners.erase HFun.method }
    else if t ≠ "" then
      { s3 with diagnostics := s3.diagnostics ++ ["CUSTOM TOOLS: Unhandled tool: " ++ t] }
    else s3
  | Option.none => s3

/-- The speak-first branch of begin: note the opening line as an
assistant turn and send its synthesized speech. -/
def speakOpening (p : Params) (message : Option String) (s : ConvState) : ConvState :=
  let s1 := noteWhatWasSaid s "assistant" message
  pushSamples s1 (p.textToSpeech message)

/-- External events driving one session. -/
inductive Step
  | beginCall (beep : Bool)
  | timerReady
  | recvBinary (chunk : List Int)
  | recvText (str : String)
  | completeTurn (i : Nat)
  | wsClose
deriving DecidableEq, Repr

/-- CallConversation.begin before its timer fires: optionally send the
greeting tone and note that begin was called (the timer callback is a
separate event). -/
def beginBody (p : Params) (beep : Bool) (s : ConvState) : ConvState :=
  if s.beginCalled then s
  else
    let s1 := { s with beginCalled := true }
    if beep then pushSamples s1 p.beep440 else s1

/-- The setTimeout callback of begin: register the anonymous userMessage
listener (startListening), log READY, send the banner and RDY, then the
speak-first branch. -/
def timerBody (p : Params) (s : ConvState) : ConvState :=
  if s.beginCalled ∧ ¬ s.readyFired then
    let s1 := { s with
      readyFired := true,
      userMsgListeners := s.userMsgListeners ++ [HFun.anon s.nextAnonId],
      nextAnonId := s.nextAnonId + 1 }
    let s2 := addToCallLog s1 "READY" LogMeta.noMeta
    let s3 := pushMeta (pushMeta s2 "--- Assistant Ready ---") START_LISTENING_TOKEN
    if p.speakFirst then
      match p.speakFirstOpeningMessage with
      | Option.some m => speakOpening p (Option.some m) s3
      | Option.none =>
        let h := historyNow s3
        let s4 := { s3 with requests := s3.requests ++ [h] }
        speakOpening p (p.createResponse h).1 s4
    else s3
  else s

/-- WebCall._handleWebsocket_Audio: append the received chunk. The
transport delivers no message events after the close event fired. -/
def recvBinaryBody (chunk : List Int) (s : ConvState) : ConvState :=
  if s.closeEvtFired then s
  else { s with pendingSamples := s.pendingSamples ++ [chunk] }

/-- A text frame delivered to WebCall._handleWebsocket_Meta. -/
def recvTextBody (p : Params) (str : String) (s : ConvState) : ConvState :=
  if s.closeEvtFired then s else handleMeta p str s

/-- Resolution of the i-th pending createResponse promise: run the
continuation of the userMessage handler on its stored response. -/
def completeBody (p : Params) (i : Nat) (s : ConvState) : ConvState :=
  match s.inFlight[i]? with
  | Option.some r => runTurnRest p r { s with inFlight := s.inFlight.eraseIdx i }
  | Option.none => s

/-- The websocket close event: emit callEnded (appending CALL_ENDED and
invoking onEnd) and destroy the speech-to-text engine. -/
def wsCloseBody (s : ConvState) : ConvState :=
  if s.closeEvtFired then s
  else
    let s1 := { s with emitted := s.emitted ++ ["callEnded"] }
    let s2 := emitCallEnded s1
    { s2 with closeEvtFired := true, sttDestroyCalls := s2.sttDestroyCalls + 1 }

/-- One step of the session: deliver one external event to the code of
call.js and run it to its next quiescent point. After a fatal unhandled
rejection the process is gone and nothing further runs. -/
def stepF (p : Params) (e : Step) (s : ConvState) : ConvState :=
  if s.fatalError then s
  else
    match e with
    | Step.beginCall beep => beginBody p beep s
    | Step.timerReady => timerBody p s
    | Step.recvBinary chunk => recvBinaryBody chunk s
    | Step.recvText str => recvTextBody p str s
    | Step.completeTurn i => completeBody p i s
    | Step.wsClose => wsCloseBody s

/-- The state right after the CallConversation constructor: the history
reference is assigned the assistant prompt reference itself, the call log
holds the INIT entry, and the callEnded and INT handlers are registered. -/
def initConv (p : Params) : ConvState where
  heap := [p.prompt]
  promptRef := 0
  historyRef := 0
  noted := []
  callLog := [⟨0, "INIT", LogMeta.initMeta p.assistantInfo⟩]
  now := 1
  pendingSamples := []
  sentMeta := []
  sentSamples := []
  emitted := []
  sttInputs := []
  requests := []
  userMsgListeners := []
  nextAnonId := 0
  inFlight := []
  closed := false
  closeEvtFired := false
  onEndCalls := []
  warnings := 0
  diagnostics := []
  fatalError := false
  beginCalled := false
  readyFired := false
  sttDestroyCalls := 0

/-- Run a whole event trace from the constructor state. -/
def runTrace (p : Params) (t : List Step) : ConvState :=
  t.foldl (fun s e => stepF p e s) (initConv p)

/-- Number of call-log entries carrying a given event name. -/
def countEvent (log : List LogEntry) (ev : String) : Nat :=
  (log.filter (fun en => en.event = ev)).length

/-! ## Helper lemmas about the state machine -/

lemma countEvent_append (l1 l2 : List LogEntry) (ev : String) :
    countEvent (l1 ++ l2) ev = countEvent l1 ev + countEvent l2 ev := by
  simp [countEvent, List.filter_append]

lemma countEvent_single (en : LogEntry) (ev : String) :
    countEvent [en] ev = if en.event = ev then 1 else 0 := by
  by_cases h : en.event = ev <;> simp [countEvent, List.filter, h]

lemma heapGet_set_append (h : List (List Turn)) (r : Nat) (t : List Turn) :
    heapGet h r <+: heapGet (heapSet h r (heapGet h r ++ t)) r := by
  unfold heapGet heapSet
  rw [List.getElem?_set_self']
  cases hx : h[r]? with
  | none => simp
  | some v => simp

lemma heapGet_set_append_eq (h : List (List Turn)) (r : Nat) (t : List Turn)
    (hr : r < h.length) :
    heapGet (heapSet h r (heapGet h r ++ t)) r = heapGet h r ++ t := by
  unfold heapGet heapSet
  rw [List.getElem?_set_self']
  cases hx : h[r]? with
  | none =>
    have := List.getElem?_eq_none_iff.1 hx
    omega
  | some v => simp

/-- Append-only growth relative to fixed base lists: the call log extends
`L` and the history array extends `H`. -/
def GrowsFrom (L : List LogEntry) (H : List Turn) (s : ConvState) : Prop :=
  L <+: s.callLog ∧ H <+: historyNow s

lemma growsFrom_self (s : ConvState) : GrowsFrom s.callLog (historyNow s) s :=
  ⟨List.prefix_refl _, List.prefix_refl _⟩

lemma userMsgSync_log_step (p : Params) (m : Option String) (x : ConvState) :
    x.callLog <+: (userMsgSync p m x).callLog :=
  List.prefix_append _ _

lemma userMsgSync_hist_step (p : Params) (m : Option String) (x : ConvState) :
    historyNow x <+: historyNow (userMsgSync p m x) :=
  heapGet_set_append x.heap x.historyRef _

lemma applyTimes_log_grow (f : ConvState → ConvState)
    (hf : ∀ x, x.callLog <+: (f x).callLog) :
    ∀ (n : Nat) (s : ConvState) {L : List LogEntry},
      L <+: s.callLog → L <+: (applyTimes f n s).callLog := by
  intro n
  induction n with
  | zero => intro s L h; exact h
  | succ k ih => intro s L h; exact ih (f s) (h.trans (hf s))

lemma applyTimes_hist_grow (f : ConvState → ConvState)
    (hf : ∀ x, historyNow x <+: historyNow (f x)) :
    ∀ (n : Nat) (s : ConvState) {H : List Turn},
      H <+: historyNow s → H <+: historyNow (applyTimes f n s) := by
  intro n
  induction n with
  | zero => intro s H h; exact h
  | succ k ih => intro s H h; exact ih (f s) (h.trans (hf s))

lemma growsFrom_handleMeta {L : List LogEntry} {H : List Turn} {s : ConvState}
    (p : Params) (str : String) (h : GrowsFrom L H s) :
    GrowsFrom L H (handleMeta p str s) := by
  unfold handleMeta
  split
  · split
    · cases hca : combinedAudio s.pendingSamples with
      | none => exact ⟨h.1, h.2⟩
      | some buf =>
        exact ⟨applyTimes_log_grow _ (userMsgSync_log_step p _) _ _ h.1,
          applyTimes_hist_grow _ (userMsgSync_hist_step p _) _ _ h.2⟩
    · exact ⟨h.1, h.2⟩
  · dsimp only
    split
    · split
      · exact ⟨h.1.trans (List.prefix_append _ _), h.2.trans (heapGet_set_append _ _ _)⟩
      · split
        · exact ⟨h.1.trans (List.prefix_append _ _), h.2⟩
        · split
          · exact ⟨applyTimes_log_grow _ (userMsgSync_log_step p _) _ _ h.1,
              applyTimes_hist_grow _ (userMsgSync_hist_step p _) _ _ h.2⟩
          · exact ⟨h.1, h.2⟩
    · split
      · exact ⟨h.1.trans (List.prefix_append _ _), h.2.trans (heapGet_set_append _ _ _)⟩
      · split
        · exact ⟨h.1.trans (List.prefix_append _ _), h.2⟩
        · split
          · exact ⟨applyTimes_log_grow _ (userMsgSync_log_step p _) _ _ h.1,
              applyTimes_hist_grow _ (userMsgSync_hist_step p _) _ _ h.2⟩
          · exact ⟨h.1, h.2⟩

lemma growsFrom_runTurnRest {L : List LogEntry} {H : List Turn} {s : ConvState}
    (p : Params) (r : Option String × Option String) (h : GrowsFrom L H s) :
    GrowsFrom L H (runTurnRest p r s) := by
  unfold runTurnRest
  dsimp only
  have h2 : GrowsFrom L H
      (match r.1 with
        | Option.some c =>
          if c ≠ "" then
            pushSamples (pushMeta (noteWhatWasSaid (pushMeta s "--- time.responseGeneration")
              "assistant" (Option.some c)) "--- time.speechGeneration")
              (p.textToSpeech (Option.some c))
          else pushMeta s "--- time.responseGeneration"
        | Option.none => pushMeta s "--- time.responseGeneration") := by
    cases r.1 with
    | none => exact ⟨h.1, h.2⟩
    | some c =>
      dsimp only
      split
      · exact ⟨h.1.trans (List.prefix_append _ _), h.2.trans (heapGet_set_append _ _ _)⟩
      · exact ⟨h.1, h.2⟩
  generalize hx : (match r.1 with
    | Option.some c =>
      if c ≠ "" then
        pushSamples (pushMeta (noteWhatWasSaid (pushMeta s "--- time.responseGeneration")
          "assistant" (Option.some c)) "--- time.speechGeneration")
          (p.textToSpeech (Option.some c))
      else pushMeta s "--- time.responseGeneration"
    | Option.none => pushMeta s "--- time.responseGeneration") = x at h2 ⊢
  have h3 : GrowsFrom L H
      (match r.2 with
        | Option.some t =>
          if t ≠ "" then addToCallLog x "TOOL_SELECTED" (LogMeta.toolMeta t) else x
        | Option.none => x) := by
    cases r.2 with
    | none => exact h2
    | some t =>
      dsimp only
      split
      · exact ⟨h2.1.trans (List.prefix_append _ _), h2.2⟩
      · exact h2
  generalize hy : (match r.2 with
    | Option.some t =>
      if t ≠ "" then addToCallLog x "TOOL_SELECTED" (LogMeta.toolMeta t) else x
    | Option.none => x) = y at h3 ⊢
  cases r.2 with
  | none => exact h3
  | some t =>
    dsimp only
    split
    · exact ⟨h3.1, h3.2⟩
    · split
      · exact ⟨h3.1, h3.2⟩
      · exact h3

lemma growsFrom_beginBody {L : List LogEntry} {H : List Turn} {s : ConvState}
    (p : Params) (b : Bool) (h : GrowsFrom L H s) : GrowsFrom L H (beginBody p b s) := by
  unfold beginBody
  cases hb : s.beginCalled with
  | true => exact ⟨h.1, h.2⟩
  | false =>
    cases b with
    | true => exact ⟨h.1, h.2⟩
    | false => exact ⟨h.1, h.2⟩

lemma growsFrom_timerBody {L : List LogEntry} {H : List Turn} {s : ConvState}
    (p : Params) (h : GrowsFrom L H s) : GrowsFrom L H (timerBody p s) := by
  unfold timerBody
  by_cases hr : s.beginCalled = true ∧ ¬ s.readyFired = true
  · rw [if_pos hr]
    cases hsf : p.speakFirst with
    | false => exact ⟨h.1.trans (List.prefix_append _ _), h.2⟩
    | true =>
      cases hm : p.speakFirstOpeningMessage with
      | some m =>
        exact ⟨(h.1.trans (List.prefix_append _ _)).trans (List.prefix_append _ _),
          h.2.trans (heapGet_set_append _ _ _)⟩
      | none =>
        exact ⟨(h.1.trans (List.prefix_append _ _)).trans (List.prefix_append _ _),
          h.2.trans (heapGet_set_append _ _ _)⟩
  · rw [if_neg hr]
    exact h

lemma growsFrom_completeBody {L : List LogEntry} {H : List Turn} {s : ConvState}
    (p : Params) (i : Nat) (h : GrowsFrom L H s) : GrowsFrom L H (completeBody p i s) := by
  unfold completeBody
  cases hif : s.inFlight[i]? with
  | none => exact h
  | some r => exact growsFrom_runTurnRest p r ⟨h.1, h.2⟩

lemma growsFrom_recvBinaryBody {L : List LogEntry} {H : List Turn} {s : ConvState}
    (chunk : List Int) (h : GrowsFrom L H s) : GrowsFrom L H (recvBinaryBody chunk s) := by
  unfold recvBinaryBody
  cases hcf : s.closeEvtFired with
  | true => exact ⟨h.1, h.2⟩
  | false => exact ⟨h.1, h.2⟩

lemma growsFrom_recvTextBody {L : List LogEntry} {H : List Turn} {s : ConvState}
    (p : Params) (str : String) (h : GrowsFrom L H s) :
    GrowsFrom L H (recvTextBody p str s) := by
  unfold recvTextBody
  cases hcf : s.closeEvtFired with
  | true => exact ⟨h.1, h.2⟩
  | false => exact growsFrom_handleMeta p str ⟨h.1, h.2⟩

lemma growsFrom_wsCloseBody {L : List LogEntry} {H : List Turn} {s : ConvState}
    (h : GrowsFrom L H s) : GrowsFrom L H (wsCloseBody s) := by
  unfold wsCloseBody
  cases hcf : s.closeEvtFired with
  | true => exact ⟨h.1, h.2⟩
  | false => exact ⟨h.1.trans (List.prefix_append _ _), h.2⟩

lemma growsFrom_step {L : List LogEntry} {H : List Turn} {s : ConvState}
    (p : Params) (e : Step) (h : GrowsFrom L H s) : GrowsFrom L H (stepF p e s) := by
  unfold stepF
  cases hf : s.fatalError with
  | true => exact ⟨h.1, h.2⟩
  | false =>
    cases e with
    | beginCall beep => exact growsFrom_beginBody p beep h
    | timerReady => exact growsFrom_timerBody p h
    | recvBinary chunk => exact growsFrom_recvBinaryBody chunk h
    | recvText str => exact growsFrom_recvTextBody p str h
    | completeTurn i => exact growsFrom_completeBody p i h
    | wsClose => exact growsFrom_wsCloseBody h

lemma countEvent_snoc (l : List LogEntry) (en : LogEntry) (ev : String)
    (hne : en.event ≠ ev) : countEvent (l ++ [en]) ev = countEvent l ev := by
  rw [countEvent_append, countEvent_single, if_neg hne]
  omega

lemma transcript_ne_ce : ("TRANSCRIPT" : String) ≠ "CALL_ENDED" := by decide

lemma tool_ne_ce : ("TOOL_SELECTED" : String) ≠ "CALL_ENDED" := by decide

lemma ready_ne_ce : ("READY" : String) ≠ "CALL_ENDED" := by decide

/-- The session has appended a fixed number of CALL_ENDED entries, a fixed
record of completion-callback invocations, and a fixed close flag. -/
def SealedAt (n0 : Nat) (oe : List (List LogEntry)) (b : Bool) (s : ConvState) : Prop :=
  countEvent s.callLog "CALL_ENDED" = n0 ∧ s.onEndCalls = oe ∧ s.closeEvtFired = b

lemma userMsgSync_sealed {n0 : Nat} {oe : List (List LogEntry)} {b : Bool}
    (p : Params) (m : Option String) (x : ConvState) (h : SealedAt n0 oe b x) :
    SealedAt n0 oe b (userMsgSync p m x) :=
  ⟨(countEvent_snoc _ _ _ transcript_ne_ce).trans h.1, h.2.1, h.2.2⟩

lemma applyTimes_sealed {n0 : Nat} {oe : List (List LogEntry)} {b : Bool}
    (f : ConvState → ConvState)
    (hf : ∀ x, SealedAt n0 oe b x → SealedAt n0 oe b (f x)) :
    ∀ (n : Nat) (s : ConvState), SealedAt n0 oe b s → SealedAt n0 oe b (applyTimes f n s) := by
  intro n
  induction n with
  | zero => intro s h; exact h
  | succ k ih => intro s h; exact ih (f s) (hf s h)

lemma sealed_handleMeta {n0 : Nat} {oe : List (List LogEntry)} {b : Bool} {s : ConvState}
    (p : Params) (str : String) (hne : str ≠ "callEnded") (h : SealedAt n0 oe b s) :
    SealedAt n0 oe b (handleMeta p str s) := by
  unfold handleMeta
  by_cases hEOS : str = END_OF_SPEECH_TOKEN
  · rw [if_pos hEOS]
    split
    · cases hca : combinedAudio s.pendingSamples with
      | none => exact ⟨h.1, h.2.1, h.2.2⟩
      | some buf =>
        exact applyTimes_sealed _ (fun x hx => userMsgSync_sealed p _ x hx) _ _
          ⟨h.1, h.2.1, h.2.2⟩
    · exact ⟨h.1, h.2.1, h.2.2⟩
  · rw [if_neg hEOS]
    dsimp only
    by_cases hE : str = "error"
    · subst hE
      exact ⟨h.1, h.2.1, h.2.2⟩
    · rw [if_neg hE]
      by_cases hI : str = INTERRUPT_TOKEN
      · subst hI
        exact ⟨(countEvent_snoc _ _ _ transcript_ne_ce).trans h.1, h.2.1, h.2.2⟩
      · rw [if_neg hI]
        by_cases hC : str = "callEnded"
        · exact absurd hC hne
        · rw [if_neg hC]
          by_cases hU : str = "userMessage"
          · subst hU
            exact applyTimes_sealed _ (fun x hx => userMsgSync_sealed p _ x hx) _ _
              ⟨h.1, h.2.1, h.2.2⟩
          · rw [if_neg hU, if_neg hE]
            exact ⟨h.1, h.2.1, h.2.2⟩

lemma sealed_runTurnRest {n0 : Nat} {oe : List (List LogEntry)} {b : Bool} {s : ConvState}
    (p : Params) (r : Option String × Option String) (h : SealedAt n0 oe b s) :
    SealedAt n0 oe b (runTurnRest p r s) := by
  unfold runTurnRest
  dsimp only
  have h2 : SealedAt n0 oe b
      (match r.1 with
        | Option.some c =>
          if c ≠ "" then
            pushSamples (pushMeta (noteWhatWasSaid (pushMeta s "--- time.responseGeneration")
              "assistant" (Option.some c)) "--- time.speechGeneration")
              (p.textToSpeech (Option.some c))
          else pushMeta s "--- time.responseGeneration"
        | Option.none => pushMeta s "--- time.responseGeneration") := by
    cases r.1 with
    | none => exact ⟨h.1, h.2.1, h.2.2⟩
    | some c =>
      dsimp only
      split
      · exact ⟨(countEvent_snoc _ _ _ transcript_ne_ce).trans h.1, h.2.1, h.2.2⟩
      · exact ⟨h.1, h.2.1, h.2.2⟩
  generalize hx : (match r.1 with
    | Option.some c =>
      if c ≠ "" then
        pushSamples (pushMeta (noteWhatWasSaid (pushMeta s "--- time.responseGeneration")
          "assistant" (Option.some c)) "--- time.speechGeneration")
          (p.textToSpeech (Option.some c))
      else pushMeta s "--- time.responseGeneration"
    | Option.none => pushMeta s "--- time.responseGeneration") = x at h2 ⊢
  have h3 : SealedAt n0 oe b
      (match r.2 with
        | Option.some t =>
          if t ≠ "" then addToCallLog x "TOOL_SELECTED" (LogMeta.toolMeta t) else x
        | Option.none => x) := by
    cases r.2 with
    | none => exact h2
    | some t =>
      dsimp only
      split
      · exact ⟨(countEvent_snoc _ _ _ tool_ne_ce).trans h2.1, h2.2.1, h2.2.2⟩
      · exact h2
  generalize hy : (match r.2 with
    | Option.some t =>
      if t ≠ "" then addToCallLog x "TOOL_SELECTED" (LogMeta.toolMeta t) else x
    | Option.none => x) = y at h3 ⊢
  cases r.2 with
  | none => exact h3
  | some t =>
    dsimp only
    split
    · exact ⟨h3.1, h3.2.1, h3.2.2⟩
    · split
      · exact ⟨h3.1, h3.2.1, h3.2.2⟩
      · exact h3

lemma sealed_beginBody {n0 : Nat} {oe : List (List LogEntry)} {b : Bool} {s : ConvState}
    (p : Params) (bp : Bool) (h : SealedAt n0 oe b s) : SealedAt n0 oe b (beginBody p bp s) := by
  unfold beginBody
  cases hb : s.beginCalled with
  | true => exact h
  | false =>
    cases bp with
    | true => exact ⟨h.1, h.2.1, h.2.2⟩
    | false => exact ⟨h.1, h.2.1, h.2.2⟩

lemma sealed_timerBody {n0 : Nat} {oe : List (List LogEntry)} {b : Bool} {s : ConvState}
    (p : Params) (h : SealedAt n0 oe b s) : SealedAt n0 oe b (timerBody p s) := by
  unfold timerBody
  by_cases hr : s.beginCalled = true ∧ ¬ s.readyFired = true
  · rw [if_pos hr]
    cases hsf : p.speakFirst with
    | false => exact ⟨(countEvent_snoc _ _ _ ready_ne_ce).trans h.1, h.2.1, h.2.2⟩
    | true =>
      cases hm : p.speakFirstOpeningMessage with
      | some m =>
        exact ⟨(countEvent_snoc _ _ _ transcript_ne_ce).trans
          ((countEvent_snoc _ _ _ ready_ne_ce).trans h.1), h.2.1, h.2.2⟩
      | none =>
        exact ⟨(countEvent_snoc _ _ _ transcript_ne_ce).trans
          ((countEvent_snoc _ _ _ ready_ne_ce).trans h.1), h.2.1, h.2.2⟩
  · rw [if_neg hr]
    exact h

lemma sealed_completeBody {n0 : Nat} {oe : List (List LogEntry)} {b : Bool} {s : ConvState}
    (p : Params) (i : Nat) (h : SealedAt n0 oe b s) : SealedAt n0 oe b (completeBody p i s) := by
  unfold completeBody
  cases hif : s.inFlight[i]? with
  | none => exact h
  | some r => exact sealed_runTurnRest p r ⟨h.1, h.2.1, h.2.2⟩

lemma sealed_step {n0 : Nat} {oe : List (List LogEntry)} {b : Bool} {s : ConvState}
    (p : Params) (e : Step) (he1 : e ≠ Step.wsClose)
    (he2 : e ≠ Step.recvText "callEnded") (h : SealedAt n0 oe b s) :
    SealedAt n0 oe b (stepF p e s) := by
  unfold stepF
  cases hf : s.fatalError with
  | true => exact h
  | false =>
    cases e with
    | beginCall beep => exact sealed_beginBody p beep h
    | timerReady => exact sealed_timerBody p h
    | recvBinary chunk =>
      unfold recvBinaryBody
      cases hcf : s.closeEvtFired with
      | true => exact ⟨h.1, h.2.1, h.2.2⟩
      | false => exact ⟨h.1, h.2.1, hcf.symm.trans h.2.2⟩
    | recvText str =>
      unfold recvTextBody
      cases hcf : s.closeEvtFired with
      | true => exact ⟨h.1, h.2.1, h.2.2⟩
      | false =>
        have hstr : str ≠ "callEnded" := by
          intro hx
          rw [hx] at he2
          exact he2 rfl
        exact sealed_handleMeta p str hstr ⟨h.1, h.2.1, h.2.2⟩
    | completeTurn i => exact sealed_completeBody p i h
    | wsClose => exact absurd rfl he1

lemma sealed_step_closed {n0 : Nat} {oe : List (List LogEntry)} {s : ConvState}
    (p : Params) (e : Step) (hb : s.closeEvtFired = true) (h : SealedAt n0 oe true s) :
    SealedAt n0 oe true (stepF p e s) := by
  unfold stepF
  cases hf : s.fatalError with
  | true => exact h
  | false =>
    cases e with
    | beginCall beep => exact sealed_beginBody p beep h
    | timerReady => exact sealed_timerBody p h
    | recvBinary chunk =>
      unfold recvBinaryBody
      rw [hb]
      exact ⟨h.1, h.2.1, h.2.2⟩
    | recvText str =>
      unfold recvTextBody
      rw [hb]
      exact ⟨h.1, h.2.1, h.2.2⟩
    | completeTurn i => exact sealed_completeBody p i h
    | wsClose =>
      unfold wsCloseBody
      rw [hb]
      exact ⟨h.1, h.2.1, h.2.2⟩

lemma frozen_step (p : Params) (e : Step) (s : ConvState)
    (hc : s.closeEvtFired = true) (hi : s.inFlight = []) (hr : s.readyFired = true) :
    (stepF p e s).callLog = s.callLog ∧ (stepF p e s).inFlight = [] ∧
      (stepF p e s).readyFired = true ∧ (stepF p e s).closeEvtFired = true := by
  unfold stepF
  cases hf : s.fatalError with
  | true => exact ⟨rfl, hi, hr, hc⟩
  | false =>
    cases e with
    | beginCall beep =>
      unfold beginBody
      cases hbc : s.beginCalled with
      | true => exact ⟨rfl, hi, hr, hc⟩
      | false =>
        cases beep with
        | true => exact ⟨rfl, hi, hr, hc⟩
        | false => exact ⟨rfl, hi, hr, hc⟩
    | timerReady =>
      unfold timerBody
      rw [if_neg (show ¬ (s.beginCalled = true ∧ ¬ s.readyFired = true) from
        fun hco => hco.2 hr)]
      exact ⟨rfl, hi, hr, hc⟩
    | recvBinary chunk =>
      unfold recvBinaryBody
      rw [hc]
      exact ⟨rfl, hi, hr, hc⟩
    | recvText str =>
      unfold recvTextBody
      rw [hc]
      exact ⟨rfl, hi, hr, hc⟩
    | completeTurn i =>
      unfold completeBody
      rw [hi]
      exact ⟨rfl, hi, hr, hc⟩
    | wsClose =>
      unfold wsCloseBody
      rw [hc]
      exact ⟨rfl, hi, hr, hc⟩

lemma stepF_wsClose (p : Params) (s : ConvState) (hf : s.fatalError = false)
    (hc : s.closeEvtFired = false) :
    stepF p Step.wsClose s = { s with
      emitted := s.emitted ++ ["callEnded"],
      callLog := s.callLog ++ [⟨s.now, "CALL_ENDED", LogMeta.noMeta⟩],
      now := s.now + 1,
      onEndCalls := s.onEndCalls ++ [s.callLog ++ [⟨s.now, "CALL_ENDED", LogMeta.noMeta⟩]],
      closeEvtFired := true,
      sttDestroyCalls := s.sttDestroyCalls + 1 } := by
  unfold stepF wsCloseBody
  rw [hf, hc]
  rfl

lemma heapSet_length (h : List (List Turn)) (r : Nat) (v : List Turn) :
    (heapSet h r v).length = h.length := by
  unfold heapSet
  exact List.length_set h r v

/-- The history invariant: this.history and assistant.prompt are the same
heap cell (reference 0), that cell holds the initial prompt followed by
the noted turns, and every history ever passed to createResponse was the
prompt followed by a prefix of the noted turns. -/
def HistInv (p : Params) (s : ConvState) : Prop :=
  s.promptRef = 0 ∧ s.historyRef = 0 ∧ s.heap.length = 1 ∧
  historyNow s = p.prompt ++ s.noted ∧
  (∀ r ∈ s.requests, ∃ pre, pre <+: s.noted ∧ r = p.prompt ++ pre)

lemma histInv_note (p : Params) {s : ConvState} (sp : String) (m : Option String)
    (h : HistInv p s) : HistInv p (noteWhatWasSaid s sp m) := by
  obtain ⟨h1, h2, h3, h4, h5⟩ := h
  have hlt : s.historyRef < s.heap.length := by rw [h2, h3]; exact Nat.zero_lt_one
  refine ⟨h1, h2, (heapSet_length _ _ _).trans h3, ?_, ?_⟩
  · refine (heapGet_set_append_eq _ _ _ hlt).trans ?_
    show historyNow s ++ [(⟨sp, m⟩ : Turn)] = p.prompt ++ (s.noted ++ [⟨sp, m⟩])
    rw [h4, List.append_assoc]
  · intro r hr
    obtain ⟨pre, hp1, hp2⟩ := h5 r hr
    exact ⟨pre, hp1.trans (List.prefix_append _ _), hp2⟩

lemma histInv_userMsgSync (p : Params) {s : ConvState} (m : Option String)
    (h : HistInv p s) : HistInv p (userMsgSync p m s) := by
  have hn : HistInv p (noteWhatWasSaid (pushMeta s CLEAR_BUFFER_TOKEN) "user" m) :=
    histInv_note p "user" m ⟨h.1, h.2.1, h.2.2.1, h.2.2.2.1, h.2.2.2.2⟩
  obtain ⟨h1, h2, h3, h4, h5⟩ := hn
  refine ⟨h1, h2, h3, h4, ?_⟩
  intro r hr
  rcases List.mem_append.1 hr with hr | hr
  · exact h5 r hr
  · have hre : r = historyNow (noteWhatWasSaid (pushMeta s CLEAR_BUFFER_TOKEN) "user" m) := by
      simpa using hr
    refine ⟨(noteWhatWasSaid (pushMeta s CLEAR_BUFFER_TOKEN) "user" m).noted,
      List.prefix_refl _, ?_⟩
    rw [hre, h4]

lemma histInv_addRequest (p : Params) {s : ConvState} (h : HistInv p s) :
    HistInv p { s with requests := s.requests ++ [historyNow s] } := by
  obtain ⟨h1, h2, h3, h4, h5⟩ := h
  refine ⟨h1, h2, h3, h4, ?_⟩
  intro r hr
  rcases List.mem_append.1 hr with hr | hr
  · exact h5 r hr
  · have hre : r = historyNow s := by simpa using hr
    refine ⟨s.noted, List.prefix_refl _, ?_⟩
    rw [hre, h4]

lemma histInv_applyTimes (p : Params) (f : ConvState → ConvState)
    (hf : ∀ x, HistInv p x → HistInv p (f x)) :
    ∀ (n : Nat) (s : ConvState), HistInv p s → HistInv p (applyTimes f n s) := by
  intro n
  induction n with
  | zero => intro s h; exact h
  | succ k ih => intro s h; exact ih (f s) (hf s h)

lemma histInv_speakOpening (p : Params) {s : ConvState} (m : Option String)
    (h : HistInv p s) : HistInv p (speakOpening p m s) := by
  have hn := histInv_note p "assistant" m h
  exact ⟨hn.1, hn.2.1, hn.2.2.1, hn.2.2.2.1, hn.2.2.2.2⟩

lemma histInv_handleMeta (p : Params) {s : ConvState} (str : String)
    (h : HistInv p s) : HistInv p (handleMeta p str s) := by
  unfold handleMeta
  by_cases hEOS : str = END_OF_SPEECH_TOKEN
  · rw [if_pos hEOS]
    split
    · cases hca : combinedAudio s.pendingSamples with
      | none => exact ⟨h.1, h.2.1, h.2.2.1, h.2.2.2.1, h.2.2.2.2⟩
      | some buf =>
        exact histInv_applyTimes p _ (fun x hx => histInv_userMsgSync p _ hx) _ _
          ⟨h.1, h.2.1, h.2.2.1, h.2.2.2.1, h.2.2.2.2⟩
    · exact ⟨h.1, h.2.1, h.2.2.1, h.2.2.2.1, h.2.2.2.2⟩
  · rw [if_neg hEOS]
    dsimp only
    by_cases hE : str = "error"
    · subst hE
      exact ⟨h.1, h.2.1, h.2.2.1, h.2.2.2.1, h.2.2.2.2⟩
    · rw [if_neg hE]
      by_cases hI : str = INTERRUPT_TOKEN
      · subst hI
        have hn := histInv_note p "user" (Option.some "[Interrupted your last message]")
          (⟨h.1, h.2.1, h.2.2.1, h.2.2.2.1, h.2.2.2.2⟩ :
            HistInv p { s with emitted := s.emitted ++ [INTERRUPT_TOKEN] })
        exact ⟨hn.1, hn.2.1, hn.2.2.1, hn.2.2.2.1, hn.2.2.2.2⟩
      · rw [if_neg hI]
        by_cases hC : str = "callEnded"
        · subst hC
          exact ⟨h.1, h.2.1, h.2.2.1, h.2.2.2.1, h.2.2.2.2⟩
        · rw [if_neg hC]
          by_cases hU : str = "userMessage"
          · subst hU
            exact histInv_applyTimes p _ (fun x hx => histInv_userMsgSync p _ hx) _ _
              ⟨h.1, h.2.1, h.2.2.1, h.2.2.2.1, h.2.2.2.2⟩
          · rw [if_neg hU, if_neg hE]
            exact ⟨h.1, h.2.1, h.2.2.1, h.2.2.2.1, h.2.2.2.2⟩

lemma histInv_runTurnRest (p : Params) {s : ConvState}
    (r : Option String × Option String) (h : HistInv p s) :
    HistInv p (runTurnRest p r s) := by
  unfold runTurnRest
  dsimp only
  have h2 : HistInv p
      (match r.1 with
        | Option.some c =>
          if c ≠ "" then
            pushSamples (pushMeta (noteWhatWasSaid (pushMeta s "--- time.responseGeneration")
              "assistant" (Option.some c)) "--- time.speechGeneration")
              (p.textToSpeech (Option.some c))
          else pushMeta s "--- time.responseGeneration"
        | Option.none => pushMeta s "--- time.responseGeneration") := by
    cases r.1 with
    | none => exact ⟨h.1, h.2.1, h.2.2.1, h.2.2.2.1, h.2.2.2.2⟩
    | some c =>
      dsimp only
      split
      · have hn := histInv_note p "assistant" (Option.some c)
          (⟨h.1, h.2.1, h.2.2.1, h.2.2.2.1, h.2.2.2.2⟩ :
            HistInv p (pushMeta s "--- time.responseGeneration"))
        exact ⟨hn.1, hn.2.1, hn.2.2.1, hn.2.2.2.1, hn.2.2.2.2⟩
      · exact ⟨h.1, h.2.1, h.2.2.1, h.2.2.2.1, h.2.2.2.2⟩
  generalize hx : (match r.1 with
    | Option.some c =>
      if c ≠ "" then
        pushSamples (pushMeta (noteWhatWasSaid (pushMeta s "--- time.responseGeneration")
          "assistant" (Option.some c)) "--- time.speechGeneration")
          (p.textToSpeech (Option.some c))
      else pushMeta s "--- time.responseGeneration"
    | Option.none => pushMeta s "--- time.responseGeneration") = x at h2 ⊢
  have h3 : HistInv p
      (match r.2 with
        | Option.some t =>
          if t ≠ "" then addToCallLog x "TOOL_SELECTED" (LogMeta.toolMeta t) else x
        | Option.none => x) := by
    cases r.2 with
    | none => exact h2
    | some t =>
      dsimp only
      split
      · exact ⟨h2.1, h2.2.1, h2.2.2.1, h2.2.2.2.1, h2.2.2.2.2⟩
      · exact h2
  generalize hy : (match r.2 with
    | Option.some t =>
      if t ≠ "" then addToCallLog x "TOOL_SELECTED" (LogMeta.toolMeta t) else x
    | Option.none => x) = y at h3 ⊢
  cases r.2 with
  | none => exact h3
  | some t =>
    dsimp only
    split
    · exact ⟨h3.1, h3.2.1, h3.2.2.1, h3.2.2.2.1, h3.2.2.2.2⟩
    · split
      · exact ⟨h3.1, h3.2.1, h3.2.2.1, h3.2.2.2.1, h3.2.2.2.2⟩
      · exact h3

lemma histInv_beginBody (p : Params) {s : ConvState} (beep : Bool) (h : HistInv p s) :
    HistInv p (beginBody p beep s) := by
  unfold beginBody
  cases hb : s.beginCalled with
  | true => exact h
  | false =>
    cases beep with
    | true => exact ⟨h.1, h.2.1, h.2.2.1, h.2.2.2.1, h.2.2.2.2⟩
    | false => exact ⟨h.1, h.2.1, h.2.2.1, h.2.2.2.1, h.2.2.2.2⟩

lemma histInv_timerBody (p : Params) {s : ConvState} (h : HistInv p s) :
    HistInv p (timerBody p s) := by
  unfold timerBody
  by_cases hr : s.beginCalled = true ∧ ¬ s.readyFired = true
  · rw [if_pos hr]
    dsimp only
    cases hsf : p.speakFirst with
    | false => exact ⟨h.1, h.2.1, h.2.2.1, h.2.2.2.1, h.2.2.2.2⟩
    | true =>
      cases hm : p.speakFirstOpeningMessage with
      | some m =>
        exact histInv_speakOpening p (Option.some m)
          ⟨h.1, h.2.1, h.2.2.1, h.2.2.2.1, h.2.2.2.2⟩
      | none =>
        exact histInv_speakOpening p _ (histInv_addRequest p
          ⟨h.1, h.2.1, h.2.2.1, h.2.2.2.1, h.2.2.2.2⟩)
  · rw [if_neg hr]
    exact h

lemma histInv_completeBody (p : Params) {s : ConvState} (i : Nat) (h : HistInv p s) :
    HistInv p (completeBody p i s) := by
  unfold completeBody
  cases hif : s.inFlight[i]? with
  | none => exact h
  | some r =>
    exact histInv_runTurnRest p r ⟨h.1, h.2.1, h.2.2.1, h.2.2.2.1, h.2.2.2.2⟩

lemma histInv_recvBinaryBody {s : ConvState} (p : Params) (chunk : List Int)
    (h : HistInv p s) : HistInv p (recvBinaryBody chunk s) := by
  unfold recvBinaryBody
  cases hcf : s.closeEvtFired with
  | true => exact h
  | false => exact ⟨h.1, h.2.1, h.2.2.1, h.2.2.2.1, h.2.2.2.2⟩

lemma histInv_recvTextBody {s : ConvState} (p : Params) (str : String)
    (h : HistInv p s) : HistInv p (recvTextBody p str s) := by
  unfold recvTextBody
  cases hcf : s.closeEvtFired with
  | true => exact h
  | false => exact histInv_handleMeta p str ⟨h.1, h.2.1, h.2.2.1, h.2.2.2.1, h.2.2.2.2⟩

lemma histInv_wsCloseBody {s : ConvState} (p : Params) (h : HistInv p s) :
    HistInv p (wsCloseBody s) := by
  unfold wsCloseBody
  cases hcf : s.closeEvtFired with
  | true => exact h
  | false => exact ⟨h.1, h.2.1, h.2.2.1, h.2.2.2.1, h.2.2.2.2⟩

lemma histInv_step (p : Params) {s : ConvState} (e : Step) (h : HistInv p s) :
    HistInv p (stepF p e s) := by
  unfold stepF
  cases hf : s.fatalError with
  | true => exact h
  | false =>
    cases e with
    | beginCall beep => exact histInv_beginBody p beep h
    | timerReady => exact histInv_timerBody p h
    | recvBinary chunk => exact histInv_recvBinaryBody p chunk h
    | recvText str => exact histInv_recvTextBody p str h
    | completeTurn i => exact histInv_completeBody p i h
    | wsClose => exact histInv_wsCloseBody p h

lemma histInv_init (p : Params) : HistInv p (initConv p) := by
  refine ⟨rfl, rfl, rfl, ?_, ?_⟩
  · show heapGet [p.prompt] 0 = p.prompt ++ []
    simp [heapGet]
  · intro r hr
    simp [initConv] at hr

lemma foldl_pres_of_mem (p : Params) (Q : ConvState → Prop) :
    ∀ (t : List Step), (∀ e ∈ t, ∀ s, Q s → Q (stepF p e s)) →
      ∀ s, Q s → Q (t.foldl (fun s e => stepF p e s) s) := by
  intro t
  induction t with
  | nil => intro _ s hs; exact hs
  | cons e t ih =>
    intro hmem s hs
    exact ih (fun x hx s2 hs2 => hmem x (by simp [hx]) s2 hs2) (stepF p e s)
      (hmem e (by simp) s hs)

lemma runTrace_append (p : Params) (t1 t2 : List Step) :
    runTrace p (t1 ++ t2) = t2.foldl (fun s e => stepF p e s) (runTrace p t1) := by
  simp [runTrace, List.foldl_append]

/-! ## Step equations and remaining helper lemmas -/

lemma stepF_recvText (p : Params) (str : String) (s : ConvState)
    (hf : s.fatalError = false) (hc : s.closeEvtFired = false) :
    stepF p (Step.recvText str) s = handleMeta p str s := by
  unfold stepF recvTextBody
  rw [hf, hc]
  rfl

lemma typedArraySet_overwrite (t ck : List Int) (i j : Nat) (r : List Int)
    (hset : typedArraySet t ck (i * 1024) = Option.some r) (hj : 1024 + j < ck.length) :
    r[(i + 1) * 1024 + j]? = ck[1024 + j]? := by
  unfold typedArraySet at hset
  split at hset
  case isTrue hfit =>
    cases hset
    have hlen : (t.take (i * 1024)).length = i * 1024 := by
      rw [List.length_take]
      omega
    rw [List.append_assoc]
    rw [List.getElem?_append_right (by rw [hlen]; omega)]
    rw [hlen]
    have hidx : (i + 1) * 1024 + j - i * 1024 = 1024 + j := by
      have : (i + 1) * 1024 = i * 1024 + 1024 := by ring
      omega
    rw [hidx]
    exact List.getElem?_append_left hj
  case isFalse => cases hset

lemma applyTimes_sttInputs (p : Params) (m : Option String) :
    ∀ (n : Nat) (s : ConvState),
      (applyTimes (userMsgSync p m) n s).sttInputs = s.sttInputs := by
  intro n
  induction n with
  | zero => intro s; rfl
  | succ k ih => intro s; exact (ih (userMsgSync p m s)).trans rfl

/-! ## Concrete sessions used as witnesses and counterexamples -/

/-- A sample assistant configuration whose response generator always
returns content and no tool. -/
def demoParams : Params where
  prompt := [⟨"system", Option.some "You are a helpful assistant"⟩]
  assistantInfo := "assistant-json"
  speakFirst := false
  speakFirstOpeningMessage := Option.none
  createResponse := fun _ => (Option.some "ok", Option.none)
  textToSpeech := fun _ => List.replicate 6 7
  transcribe := fun b => "heard " ++ Nat.repr b.length
  beep440 := List.replicate 4 1
  beep180 := List.replicate 4 2

/-- The same assistant configuration, but the response generator always
selects the endCall tool. -/
def endCallParams : Params :=
  { demoParams with createResponse := fun _ => (Option.none, Option.some "endCall") }

/-- A session where the assistant hangs up after the first utterance. -/
def hangupTrace : List Step :=
  [Step.beginCall false, Step.timerReady, Step.recvBinary [1, 2],
   Step.recvText "EOS", Step.completeTurn 0]

/-! ## Claim theorems -/

/-- Claim C1, counterexample: a session receives one binary frame of 2
samples and then EOS; the buffer handed to transcribe is not the
sample-wise concatenation of the received chunks but its zero padding to
1024 samples. -/
theorem C1_counterexample :
    (runTrace demoParams [Step.recvBinary [5, 6], Step.recvText "EOS"]).sttInputs ≠
      [List.flatten [[5, 6]]] ∧
    (runTrace demoParams [Step.recvBinary [5, 6], Step.recvText "EOS"]).sttInputs =
      [[5, 6] ++ List.replicate 1022 0] := by
  constructor
  · decide
  · decide

/-- Claim C1, amended: when every received chunk holds exactly 1024
samples, processing EOS hands transcription exactly the sample-wise
concatenation of the received chunks in arrival order (for other chunk
lengths the buffer is the 1024-aligned layout established for claim C9). -/
theorem C1_exact_concat_when_aligned (p : Params) (s : ConvState)
    (hf : s.fatalError = false) (hc : s.closeEvtFired = false)
    (hne : s.pendingSamples ≠ [])
    (hlen : ∀ c ∈ s.pendingSamples, c.length = 1024) :
    (stepF p (Step.recvText END_OF_SPEECH_TOKEN) s).sttInputs =
      s.sttInputs ++ [s.pendingSamples.flatten] := by
  rw [stepF_recvText p END_OF_SPEECH_TOKEN s hf hc]
  unfold handleMeta
  rw [if_pos rfl]
  rw [if_pos (show s.pendingSamples.length ≠ 0 from
    fun h0 => hne (List.length_eq_zero.1 h0))]
  rw [combinedAudio_exact hlen]
  dsimp only
  exact applyTimes_sttInputs p _ _ _

/-- Claim C1 witness: one aligned chunk of 1024 samples. -/
theorem C1_witness :
    ({ initConv demoParams with
        pendingSamples := [List.replicate 1024 (2 : Int)] } : ConvState).pendingSamples ≠ [] ∧
    (stepF demoParams (Step.recvText END_OF_SPEECH_TOKEN)
        { initConv demoParams with
          pendingSamples := [List.replicate 1024 (2 : Int)] }).sttInputs =
      ({ initConv demoParams with
          pendingSamples := [List.replicate 1024 (2 : Int)] } : ConvState).sttInputs ++
        [([List.replicate 1024 (2 : Int)] : List (List Int)).flatten] :=
  ⟨by decide,
   C1_exact_concat_when_aligned demoParams
     { initConv demoParams with pendingSamples := [List.replicate 1024 (2 : Int)] }
     rfl rfl (by decide) (by decide)⟩

/-- Claim C4 (confirmed): EOS with an empty pending buffer emits no
utterance event, changes nothing else, and records exactly one warning. -/
theorem C4_eos_empty_buffer (p : Params) (s : ConvState)
    (hf : s.fatalError = false) (hc : s.closeEvtFired = false)
    (he : s.pendingSamples = []) :
    stepF p (Step.recvText END_OF_SPEECH_TOKEN) s =
      { s with warnings := s.warnings + 1 } := by
  rw [stepF_recvText p END_OF_SPEECH_TOKEN s hf hc]
  unfold handleMeta
  rw [if_pos rfl, he]
  rfl

/-- Claim C4 witness: the freshly constructed session. -/
theorem C4_witness :
    stepF demoParams (Step.recvText END_OF_SPEECH_TOKEN) (initConv demoParams) =
      { initConv demoParams with warnings := (initConv demoParams).warnings + 1 } :=
  C4_eos_empty_buffer demoParams (initConv demoParams) rfl rfl rfl

/-- Claim C5 (confirmed): pushAudio splits any sample buffer into
sequential frames whose concatenation is exactly the input, every frame
holds at most 1024 samples, and every frame except possibly the last
holds exactly 1024 samples. -/
theorem C5_send_chunking (l : List Int) :
    (pushAudioFrames l).flatten = l ∧
    (∀ f ∈ pushAudioFrames l, f.length ≤ 1024) ∧
    (∀ (i : Nat) (f : List Int), i + 1 < (pushAudioFrames l).length →
      (pushAudioFrames l)[i]? = Option.some f → f.length = 1024) :=
  ⟨chunkLoop_flatten l.length l (le_refl _), chunkLoop_sizes l.length l,
   fun i f h1 h2 => chunkLoop_full l.length l i f h1 h2⟩

/-- Claim C5 witness: a 1500-sample buffer splits into a 1024-sample
frame and a 476-sample frame. -/
theorem C5_witness :
    (pushAudioFrames (List.replicate 1500 (3 : Int))).flatten = List.replicate 1500 3 ∧
    0 + 1 < (pushAudioFrames (List.replicate 1500 (3 : Int))).length ∧
    (List.replicate 1024 (3 : Int)).length = 1024 :=
  ⟨(C5_send_chunking (List.replicate 1500 3)).1, by decide,
   (C5_send_chunking (List.replicate 1500 3)).2.2 0 (List.replicate 1024 3)
     (by decide) (by decide)⟩

/-- Claim C7 (confirmed): an INT frame in a live session appends exactly
one synthetic interruption turn to the history, one TRANSCRIPT entry to
the call log, sends only the transcript echo line (never CLR), and leaves
the audio buffer and the transcription pipeline untouched. -/
theorem C7_interrupt_turn (p : Params) (s : ConvState)
    (hf : s.fatalError = false) (hc : s.closeEvtFired = false)
    (hv : s.historyRef < s.heap.length) :
    (stepF p (Step.recvText INTERRUPT_TOKEN) s).callLog =
      s.callLog ++ [⟨s.now, "TRANSCRIPT",
        LogMeta.transcriptMeta "user" (Option.some "[Interrupted your last message]")⟩] ∧
    historyNow (stepF p (Step.recvText INTERRUPT_TOKEN) s) =
      historyNow s ++ [⟨"user", Option.some "[Interrupted your last message]"⟩] ∧
    (stepF p (Step.recvText INTERRUPT_TOKEN) s).noted =
      s.noted ++ [⟨"user", Option.some "[Interrupted your last message]"⟩] ∧
    (stepF p (Step.recvText INTERRUPT_TOKEN) s).sentMeta =
      s.sentMeta ++ ["user: [Interrupted your last message]"] ∧
    CLEAR_BUFFER_TOKEN ∉
      ((stepF p (Step.recvText INTERRUPT_TOKEN) s).sentMeta.drop s.sentMeta.length) ∧
    (stepF p (Step.recvText INTERRUPT_TOKEN) s).pendingSamples = s.pendingSamples ∧
    (stepF p (Step.recvText INTERRUPT_TOKEN) s).sttInputs = s.sttInputs ∧
    (stepF p (Step.recvText INTERRUPT_TOKEN) s).inFlight = s.inFlight ∧
    (stepF p (Step.recvText INTERRUPT_TOKEN) s).emitted = s.emitted ++ [INTERRUPT_TOKEN] := by
  rw [stepF_recvText p INTERRUPT_TOKEN s hf hc]
  refine ⟨rfl, ?_, rfl, rfl, ?_, rfl, rfl, rfl, rfl⟩
  · exact heapGet_set_append_eq s.heap s.historyRef _ hv
  · show CLEAR_BUFFER_TOKEN ∉
      ((s.sentMeta ++ ["user: [Interrupted your last message]"]).drop s.sentMeta.length)
    rw [List.drop_left]
    decide

/-- Claim C7 witness: the freshly constructed session. -/
theorem C7_witness :
    (stepF demoParams (Step.recvText INTERRUPT_TOKEN) (initConv demoParams)).callLog =
      (initConv demoParams).callLog ++ [⟨(initConv demoParams).now, "TRANSCRIPT",
        LogMeta.transcriptMeta "user" (Option.some "[Interrupted your last message]")⟩] :=
  (C7_interrupt_turn demoParams (initConv demoParams) rfl rfl (by decide)).1

/-- Claim C8, counterexample: the text frame callEnded matches no defined
control token, yet receiving it appends a CALL_ENDED entry to the call
log (the emitter dispatches on the literal string and hits the internal
callEnded handler). -/
theorem C8_counterexample :
    (stepF demoParams (Step.recvText "callEnded") (initConv demoParams)).callLog ≠
      (initConv demoParams).callLog ∧
    (stepF demoParams (Step.recvText "callEnded") (initConv demoParams)).onEndCalls ≠
      (initConv demoParams).onEndCalls := by
  constructor
  · decide
  · decide

/-- Claim C8, amended: a text frame that matches no defined control token
and none of the internal emitter event names (userMessage, callEnded,
error) is re-emitted keyed by its literal content, logged as a
diagnostic, and changes nothing else: buffer, history, call log and
connection state are untouched. -/
theorem C8_unknown_text_inert (p : Params) (s : ConvState) (str : String)
    (hf : s.fatalError = false) (hc : s.closeEvtFired = false)
    (h1 : str ≠ END_OF_SPEECH_TOKEN) (h2 : str ≠ INTERRUPT_TOKEN)
    (h3 : str ≠ "callEnded") (h4 : str ≠ "userMessage") (h5 : str ≠ "error") :
    stepF p (Step.recvText str) s =
      { s with emitted := s.emitted ++ [str],
               diagnostics := s.diagnostics ++ ["Unknown message type: " ++ str] } := by
  rw [stepF_recvText p str s hf hc]
  unfold handleMeta
  rw [if_neg h1]
  dsimp only
  rw [if_neg h5, if_neg h2, if_neg h3, if_neg h4, if_neg h5]

/-- Claim C8 witness: the client sends the text RDY, which is a
server-to-client token and matches nothing on the server. -/
theorem C8_witness :
    stepF demoParams (Step.recvText "RDY") (initConv demoParams) =
      { initConv demoParams with
        emitted := (initConv demoParams).emitted ++ ["RDY"],
        diagnostics := (initConv demoParams).diagnostics ++
          ["Unknown message type: RDY"] } :=
  C8_unknown_text_inert demoParams (initConv demoParams) "RDY" rfl rfl
    (by decide) (by decide) (by decide) (by decide) (by decide)

/-- Claim C9 (confirmed): the EOS reconstruction always produces a buffer
of exactly n times 1024 samples on success; when every chunk fits its
slot the buffer is the chunks at their 1024-aligned offsets with zero
padding after each short chunk; a copy of a chunk longer than 1024
samples writes into the slots of its successors; and a final chunk longer
than 1024 samples makes the copy step fail with no buffer produced. -/
theorem C9_combine_layout (data : List (List Int)) (_hne : data ≠ []) :
    (∀ res, combinedAudio data = Option.some res → res.length = data.length * 1024) ∧
    ((∀ c ∈ data, c.length ≤ 1024) →
      combinedAudio data = Option.some ((data.map padChunk).flatten)) ∧
    (∀ (acc ck : List Int) (i j : Nat) (res : List Int),
      typedArraySet acc ck (i * 1024) = Option.some res → 1024 + j < ck.length →
      res[(i + 1) * 1024 + j]? = ck[1024 + j]?) ∧
    (∀ (pre : List (List Int)) (c : List Int), data = pre ++ [c] → 1024 < c.length →
      combinedAudio data = Option.none) :=
  ⟨fun _ h => combinedAudio_length h,
   fun h => combinedAudio_layout h,
   fun acc ck i j res h1 h2 => typedArraySet_overwrite acc ck i j res h1 h2,
   fun _ _ hd hc => combinedAudio_lastLong hd hc⟩

/-- Claim C9 witness: a single chunk of 1025 samples makes the copy fail. -/
theorem C9_witness :
    ([List.replicate 1025 (1 : Int)] : List (List Int)) ≠ [] ∧
    combinedAudio [List.replicate 1025 (1 : Int)] = Option.none :=
  ⟨by decide,
   (C9_combine_layout [List.replicate 1025 (1 : Int)] (by decide)).2.2.2
     [] (List.replicate 1025 1) rfl (by decide)⟩

/-- Claim C2 (code bug): after the assistant selects endCall the hangup
meta line is sent and the socket is closed, but the attempted listener
removal passes the startListening method, which was never the registered
listener (an anonymous closure was), so the anonymous listener survives
and a subsequent utterance still appends a transcript turn to history and
a TRANSCRIPT entry to the call log. -/
theorem C2_hangup_listener_leak :
    (runTrace endCallParams hangupTrace).closed = true ∧
    "---- Assistant Hung Up ----" ∈ (runTrace endCallParams hangupTrace).sentMeta ∧
    countEvent (runTrace endCallParams hangupTrace).callLog "TOOL_SELECTED" = 1 ∧
    (runTrace endCallParams hangupTrace).userMsgListeners = [HFun.anon 0] ∧
    countEvent (runTrace endCallParams
        (hangupTrace ++ [Step.recvBinary [3], Step.recvText "EOS"])).callLog
        "TRANSCRIPT" =
      countEvent (runTrace endCallParams hangupTrace).callLog "TRANSCRIPT" + 1 ∧
    (runTrace endCallParams
        (hangupTrace ++ [Step.recvBinary [3], Step.recvText "EOS"])).noted.length =
      (runTrace endCallParams hangupTrace).noted.length + 1 := by
  refine ⟨?_, ?_, ?_, ?_, ?_, ?_⟩
  · decide
  · decide
  · decide
  · decide
  · decide
  · decide

/-- Claim C6 (confirmed): every step of a session only appends to the
call log and the history; no entry is removed, reordered or modified,
and the call log length never decreases along any run. -/
theorem C6_append_only (p : Params) :
    (∀ (e : Step) (s : ConvState),
      s.callLog <+: (stepF p e s).callLog ∧
      historyNow s <+: historyNow (stepF p e s) ∧
      s.callLog.length ≤ (stepF p e s).callLog.length) ∧
    (∀ (t t2 : List Step),
      (runTrace p t).callLog <+: (runTrace p (t ++ t2)).callLog ∧
      historyNow (runTrace p t) <+: historyNow (runTrace p (t ++ t2)) ∧
      (runTrace p t).callLog.length ≤ (runTrace p (t ++ t2)).callLog.length) := by
  constructor
  · intro e s
    have h := growsFrom_step p e (growsFrom_self s)
    exact ⟨h.1, h.2, h.1.length_le⟩
  · intro t t2
    have h : GrowsFrom (runTrace p t).callLog (historyNow (runTrace p t))
        (runTrace p (t ++ t2)) := by
      rw [runTrace_append]
      exact foldl_pres_of_mem p _ t2 (fun e _ s hs => growsFrom_step p e hs)
        (runTrace p t) (growsFrom_self _)
    exact ⟨h.1, h.2, h.1.length_le⟩

/-- Claim C10 (confirmed): this.history is the assistant prompt array
itself (both references point at the same heap cell), so at every
reachable state the history equals the initial prompt followed by the
noted turns in order, the array seen through the assistant prompt
reference is that same extended sequence, and every history passed to
createResponse was this combined sequence at request time. -/
theorem C10_history_alias (p : Params) (t : List Step) :
    (runTrace p t).historyRef = (runTrace p t).promptRef ∧
    historyNow (runTrace p t) = p.prompt ++ (runTrace p t).noted ∧
    heapGet (runTrace p t).heap (runTrace p t).promptRef =
      p.prompt ++ (runTrace p t).noted ∧
    (∀ r ∈ (runTrace p t).requests, ∃ pre, pre <+: (runTrace p t).noted ∧
      r = p.prompt ++ pre) := by
  have h : HistInv p (runTrace p t) :=
    foldl_pres_of_mem p (HistInv p) t (fun e _ s hs => histInv_step p e hs)
      (initConv p) (histInv_init p)
  obtain ⟨h1, h2, h3, h4, h5⟩ := h
  refine ⟨h2.trans h1.symm, h4, ?_, h5⟩
  have : (runTrace p t).promptRef = (runTrace p t).historyRef := h1.trans h2.symm
  rw [this]
  exact h4

/-- Claim C10 witness: after one utterance the single request passed to
createResponse is the prompt followed by the transcribed user turn. -/
theorem C10_witness :
    ∃ pre, pre <+: (runTrace demoParams [Step.beginCall false, Step.timerReady,
        Step.recvBinary [7], Step.recvText "EOS"]).noted ∧
      demoParams.prompt ++ [⟨"user", Option.some "heard 1024"⟩] =
        demoParams.prompt ++ pre :=
  (C10_history_alias demoParams [Step.beginCall false, Step.timerReady,
      Step.recvBinary [7], Step.recvText "EOS"]).2.2.2
    (demoParams.prompt ++ [⟨"user", Option.some "heard 1024"⟩]) (by decide)

/-- A session where the client sends the literal text callEnded while
the response to its first utterance is still in flight, then the
transport closes, then the response resolves. -/
def rogueTrace : List Step :=
  [Step.beginCall false, Step.timerReady, Step.recvBinary [1],
   Step.recvText "EOS", Step.recvText "callEnded", Step.wsClose, Step.completeTurn 0]

/-- Claim C3, counterexample: a client text frame callEnded reaches the
internal callEnded handler, so the session appends two CALL_ENDED
entries, invokes onEnd twice, and the completion of the in-flight
response appends a TRANSCRIPT entry after the last CALL_ENDED. -/
theorem C3_counterexample :
    countEvent (runTrace demoParams rogueTrace).callLog "CALL_ENDED" = 2 ∧
    (runTrace demoParams rogueTrace).onEndCalls.length = 2 ∧
    ((runTrace demoParams rogueTrace).callLog.getLast?).map (fun en => en.event) =
      Option.some "TRANSCRIPT" := by
  refine ⟨?_, ?_, ?_⟩
  · decide
  · decide
  · decide

/-- Claim C3, amended: in every session that reaches transport close
without a fatal runtime error and in which the client never sends the
literal text frame callEnded, the close appends exactly one CALL_ENDED
entry and invokes the completion callback exactly once, with the call
log as of close, whose final entry is CALL_ENDED; afterwards the count
and the callback record never change and the log only grows, and when no
response is in flight at close and the ready timer has already fired,
the call log is final at close. -/
theorem C3_call_ended_once (p : Params) (t1 t2 : List Step)
    (h1 : Step.wsClose ∉ t1) (h2 : Step.recvText "callEnded" ∉ t1)
    (h3 : (runTrace p t1).fatalError = false) :
    countEvent (runTrace p (t1 ++ [Step.wsClose])).callLog "CALL_ENDED" = 1 ∧
    (runTrace p (t1 ++ [Step.wsClose])).onEndCalls =
      [(runTrace p (t1 ++ [Step.wsClose])).callLog] ∧
    ((runTrace p (t1 ++ [Step.wsClose])).callLog.getLast?).map (fun en => en.event) =
      Option.some "CALL_ENDED" ∧
    countEvent (runTrace p (t1 ++ Step.wsClose :: t2)).callLog "CALL_ENDED" = 1 ∧
    (runTrace p (t1 ++ Step.wsClose :: t2)).onEndCalls =
      (runTrace p (t1 ++ [Step.wsClose])).onEndCalls ∧
    (runTrace p (t1 ++ [Step.wsClose])).callLog <+:
      (runTrace p (t1 ++ Step.wsClose :: t2)).callLog ∧
    ((runTrace p (t1 ++ [Step.wsClose])).inFlight = [] ∧
      (runTrace p (t1 ++ [Step.wsClose])).readyFired = true →
      (runTrace p (t1 ++ Step.wsClose :: t2)).callLog =
        (runTrace p (t1 ++ [Step.wsClose])).callLog) := by
  have hseal : SealedAt 0 [] false (runTrace p t1) :=
    foldl_pres_of_mem p (SealedAt 0 [] false) t1
      (fun e he s hs => sealed_step p e
        (fun heq => h1 (heq ▸ he)) (fun heq => h2 (heq ▸ he)) hs)
      (initConv p) ⟨rfl, rfl, rfl⟩
  have hrw : runTrace p (t1 ++ [Step.wsClose]) = stepF p Step.wsClose (runTrace p t1) := by
    rw [runTrace_append]
    rfl
  have hstep := stepF_wsClose p (runTrace p t1) h3 hseal.2.2
  have hcount : countEvent (runTrace p (t1 ++ [Step.wsClose])).callLog "CALL_ENDED" = 1 := by
    rw [hrw, hstep]
    dsimp only
    rw [countEvent_append, hseal.1, countEvent_single]
    rfl
  have honend : (runTrace p (t1 ++ [Step.wsClose])).onEndCalls =
      [(runTrace p (t1 ++ [Step.wsClose])).callLog] := by
    rw [hrw, hstep]
    dsimp only
    rw [hseal.2.1]
    rfl
  have hlast : ((runTrace p (t1 ++ [Step.wsClose])).callLog.getLast?).map
      (fun en => en.event) = Option.some "CALL_ENDED" := by
    rw [hrw, hstep]
    dsimp only
    rw [List.getLast?_concat]
    rfl
  have hclose1 : (runTrace p (t1 ++ [Step.wsClose])).closeEvtFired = true := by
    rw [hrw, hstep]
  have hsplit : runTrace p (t1 ++ Step.wsClose :: t2) =
      t2.foldl (fun s e => stepF p e s) (runTrace p (t1 ++ [Step.wsClose])) := by
    rw [show t1 ++ Step.wsClose :: t2 = (t1 ++ [Step.wsClose]) ++ t2 by simp,
      runTrace_append]
  have hafter : SealedAt 1 (runTrace p (t1 ++ [Step.wsClose])).onEndCalls true
        (runTrace p (t1 ++ Step.wsClose :: t2)) ∧
      GrowsFrom (runTrace p (t1 ++ [Step.wsClose])).callLog
        (historyNow (runTrace p (t1 ++ [Step.wsClose])))
        (runTrace p (t1 ++ Step.wsClose :: t2)) := by
    rw [hsplit]
    exact foldl_pres_of_mem p
      (fun x => SealedAt 1 (runTrace p (t1 ++ [Step.wsClose])).onEndCalls true x ∧
        GrowsFrom (runTrace p (t1 ++ [Step.wsClose])).callLog
          (historyNow (runTrace p (t1 ++ [Step.wsClose]))) x) t2
      (fun e _ s hs => ⟨sealed_step_closed p e hs.1.2.2 hs.1, growsFrom_step p e hs.2⟩)
      (runTrace p (t1 ++ [Step.wsClose]))
      ⟨⟨hcount, rfl, hclose1⟩, growsFrom_self _⟩
  refine ⟨hcount, honend, hlast, hafter.1.1, hafter.1.2.1, hafter.2.1, ?_⟩
  rintro ⟨hin, hready⟩
  rw [hsplit]
  have hQ := foldl_pres_of_mem p (fun x =>
      x.callLog = (runTrace p (t1 ++ [Step.wsClose])).callLog ∧ x.inFlight = [] ∧
      x.readyFired = true ∧ x.closeEvtFired = true) t2
    (fun e _ s hs => by
      have hfz := frozen_step p e s hs.2.2.2 hs.2.1 hs.2.2.1
      exact ⟨hfz.1.trans hs.1, hfz.2.1, hfz.2.2.1, hfz.2.2.2⟩)
    (runTrace p (t1 ++ [Step.wsClose])) ⟨rfl, hin, hready, hclose1⟩
  exact hQ.1

/-- Claim C3 witness: a well-behaved session with one utterance in
flight at close time. -/
theorem C3_witness :
    countEvent (runTrace demoParams ([Step.beginCall false, Step.timerReady,
        Step.recvBinary [1], Step.recvText "EOS"] ++ [Step.wsClose])).callLog
      "CALL_ENDED" = 1 ∧
    (runTrace demoParams ([Step.beginCall false, Step.timerReady,
        Step.recvBinary [1], Step.recvText "EOS"] ++
        Step.wsClose :: [Step.completeTurn 0])).onEndCalls =
      (runTrace demoParams ([Step.beginCall false, Step.timerReady,
        Step.recvBinary [1], Step.recvText "EOS"] ++ [Step.wsClose])).onEndCalls :=
  ⟨(C3_call_ended_once demoParams [Step.beginCall false, Step.timerReady,
      Step.recvBinary [1], Step.recvText "EOS"] [Step.completeTurn 0]
      (by decide) (by decide) (by decide)).1,
   (C3_call_ended_once demoParams [Step.beginCall false, Step.timerReady,
      Step.recvBinary [1], Step.recvText "EOS"] [Step.completeTurn 0]
      (by decide) (by decide) (by decide)).2.2.2.2.1⟩

end VoiceCall
